import Mathlib

/-!
# Feature-matrix loader verification

Shallow embedding of the bounded-concurrency feature-matrix loader of
`src/components/charts/FeatureAnalysisChart.tsx` (the `ComprehensiveFeatureTable`
component): the cache-key builder `getCacheKey`, the per-subject fetcher
`fetchSubject`, the bounded task scheduler (`processNext` and the initial worker
loop), the feature-matrix and PCA caches, and the PCA click handler.

Conventions of the embedding:
- JS numbers that carry subject ids, feature values and PCA coordinates are
  modelled as `Int`; timestamps (`Date.now()`) as `Nat` milliseconds.
- A JS `Map` is modelled as an association list whose `set` prepends; `get`
  returns the most recent binding, which matches `Map` overwrite semantics.
- Response fields that the code checks for presence/shape at runtime
  (`result.rows`, `result.columns`, `pcaResult.data_points`) are modelled as
  `Option`; `none` models an absent or non-array field.
- `Array.prototype.sort` on strings (default comparator) and on numbers
  (`(a, b) => a - b`) returns the unique `≤`-sorted permutation of the array,
  modelled with `List.insertionSort (· ≤ ·)`; since the sort is in place, the
  key builder is modelled by `getCacheKeyCall`, which also returns the post-call
  contents of the two argument arrays.
-/

namespace FeatureAnalysis

open List

/-- A dynamic JSON field value of a feature-matrix row (`number | string`). -/
inductive JsonValue where
  | num (n : Int)
  | str (s : String)
deriving Repr, DecidableEq

/-- One raw row of a `/features/matrix` response: `Subject`, `Emotion`,
`_color`, plus dynamic feature fields (`[key: string]: number | string`). -/
structure RawFeatureRow where
  Subject : Int
  Emotion : String
  _color : String
  fields : List (String × JsonValue)
deriving Repr, DecidableEq

/-- The normalized internal row record `SubjectEmotionFeatureRow`. -/
structure SubjectEmotionFeatureRow where
  subjectId : Int
  emotion : String
  color : String
  features : List (String × Int)
  pc1 : Option Int := none
  pc2 : Option Int := none
deriving Repr, DecidableEq

/-- The parts of a `FeatureMatrixResponse` the loader reads.  `rows = none`
models a response whose row collection is absent or not an array; likewise
`columns = none` models an absent column list. -/
structure FeatureMatrixResponse where
  columns : Option (List String)
  rows : Option (List RawFeatureRow)
deriving Repr, DecidableEq

/-- One point of a `/pca/frequency` response. -/
structure PCADataPoint where
  subject_id : Int
  emotion : String
  color : String
  pc1 : Int
  pc2 : Int
deriving Repr, DecidableEq

/-- The parts of a `FrequencyPCAResponse` the handler reads.
`data_points = none` models an absent or non-array point collection. -/
structure FrequencyPCAResponse where
  variance_explained : Int × Int
  data_points : Option (List PCADataPoint)
deriving Repr, DecidableEq

/-- An HTTP response as seen by `fetch`: `ok` flag, `status`, parsed body. -/
structure HttpResponse (β : Type) where
  ok : Bool
  status : Nat
  body : β
deriving Repr, DecidableEq

/-- `CACHE_DURATION_MS = 5 * 60 * 1000`. -/
def CACHE_DURATION_MS : Nat := 5 * 60 * 1000

/-- `getCacheKey`, including its effect on its arguments: JS
`features.sort()` and `subjectIds.sort((a, b) => a - b)` sort the argument
arrays in place and return them; the second and third components are the
contents of `features` and `subjectIds` after the call. -/
def getCacheKeyCall (studyNumber : Nat) (features : List String)
    (subjectIds : List Int) : String × List String × List Int :=
  let sortedFeatures := features.insertionSort (· ≤ ·)
  let sortedIds := subjectIds.insertionSort (· ≤ ·)
  (toString studyNumber ++ ":" ++ String.intercalate "," sortedFeatures ++ ":" ++
      String.intercalate "," (sortedIds.map toString),
    sortedFeatures, sortedIds)

/-- The string returned by `getCacheKey`. -/
def getCacheKey (studyNumber : Nat) (features : List String)
    (subjectIds : List Int) : String :=
  (getCacheKeyCall studyNumber features subjectIds).1

theorem insertionSort_eq_of_perm {α : Type} [LinearOrder α] {l₁ l₂ : List α}
    (h : l₁ ~ l₂) :
    l₁.insertionSort (· ≤ ·) = l₂.insertionSort (· ≤ ·) := by
  haveI : IsAntisymm α (· ≤ ·) := ⟨fun _ _ => le_antisymm⟩
  exact List.eq_of_perm_of_sorted
    (((List.perm_insertionSort _ l₁).trans h).trans
      (List.perm_insertionSort _ l₂).symm)
    (List.sorted_insertionSort _ l₁) (List.sorted_insertionSort _ l₂)

/-- C6: for every study number and non-empty feature / subject-id lists, the
cache key is invariant under permuting either input list. -/
theorem C6_key_permutation_invariant (studyNumber : Nat)
    (features features' : List String) (subjectIds subjectIds' : List Int)
    (hf : features ≠ []) (hi : subjectIds ≠ [])
    (hpf : features' ~ features) (hpi : subjectIds' ~ subjectIds) :
    getCacheKey studyNumber features' subjectIds' =
      getCacheKey studyNumber features subjectIds := by
  unfold getCacheKey getCacheKeyCall
  rw [insertionSort_eq_of_perm hpf, insertionSort_eq_of_perm hpi]

/-- Witness for C6 at `studyNumber = 3`, `features = ["ECG", "EDA"]`,
`subjectIds = [1, 2]` and shuffled copies of both lists. -/
theorem C6_key_permutation_invariant_witness :
    getCacheKey 3 ["EDA", "ECG"] [2, 1] = getCacheKey 3 ["ECG", "EDA"] [1, 2] :=
  C6_key_permutation_invariant 3 ["ECG", "EDA"] ["EDA", "ECG"] [1, 2] [2, 1]
    (by decide) (by decide) (by decide) (by decide)

/-- C9 counterexample: `getCacheKey` sorts both argument arrays in place, so
after `getCacheKey(3, ["b", "a"], [2, 1])` the caller's arrays hold
`["a", "b"]` and `[1, 2]`, not the original contents. -/
theorem C9_counterexample :
    (getCacheKeyCall 3 ["b", "a"] [2, 1]).2.1 ≠ ["b", "a"] ∧
    (getCacheKeyCall 3 ["b", "a"] [2, 1]).2.2 ≠ [2, 1] := by
  constructor
  · intro h
    simp [getCacheKeyCall, List.insertionSort, List.orderedInsert,
      String.le_iff_toList_le] at h
    exact absurd h (by decide)
  · intro h
    simp [getCacheKeyCall, List.insertionSort, List.orderedInsert] at h

/-- C9 amended: the call leaves both argument arrays holding sorted
permutations of their previous contents (an in-place sort, not "unchanged"),
and the key depends only on the arguments: in particular a repeat call on the
mutated arrays returns the same key. -/
theorem C9_sorts_arguments_in_place (studyNumber : Nat) (features : List String)
    (subjectIds : List Int) :
    (getCacheKeyCall studyNumber features subjectIds).2.1 ~ features ∧
    List.Sorted (· ≤ ·) (getCacheKeyCall studyNumber features subjectIds).2.1 ∧
    (getCacheKeyCall studyNumber features subjectIds).2.2 ~ subjectIds ∧
    List.Sorted (· ≤ ·) (getCacheKeyCall studyNumber features subjectIds).2.2 ∧
    getCacheKey studyNumber (getCacheKeyCall studyNumber features subjectIds).2.1
        (getCacheKeyCall studyNumber features subjectIds).2.2 =
      getCacheKey studyNumber features subjectIds := by
  refine ⟨List.perm_insertionSort _ _, List.sorted_insertionSort _ _,
    List.perm_insertionSort _ _, List.sorted_insertionSort _ _, ?_⟩
  unfold getCacheKey getCacheKeyCall
  rw [insertionSort_eq_of_perm (List.perm_insertionSort _ features),
    insertionSort_eq_of_perm (List.perm_insertionSort _ subjectIds)]

/-- The column filter of the capture step: keeps every column except the
identity/color fields `Subject`, `Emotion`, `_color`. -/
def filterIdentityCols (cols : List String) : List String :=
  cols.filter (fun col => col != "Subject" && col != "Emotion" && col != "_color")

/-- The row projection of `fetchSubject`: keeps only the fields of
`featureCols` whose value in the raw row is a number. -/
def transformRow (featureCols : List String) (item : RawFeatureRow) :
    SubjectEmotionFeatureRow :=
  { subjectId := item.Subject
    emotion := item.Emotion
    color := item._color
    features := featureCols.filterMap (fun col =>
      match (item.fields.find? (fun p => p.1 == col)).map Prod.snd with
      | some (JsonValue.num n) => some (col, n)
      | _ => none) }

/-- `fetchSubject`, as a function of the shared `featureCols` cell and the
HTTP response for one subject.  A non-ok response throws (modelled as
`Except.error` carrying the status); an ok response with an absent/non-array
row collection yields no rows and leaves `featureCols` untouched; otherwise
the column set is captured when it is still empty and the rows are projected.
The result pairs the new `featureCols` contents with the returned rows. -/
def fetchSubject (featureCols : List String)
    (response : HttpResponse FeatureMatrixResponse) :
    Except Nat (List String × List SubjectEmotionFeatureRow) :=
  if !response.ok then
    .error response.status
  else
    match response.body.rows with
    | none => .ok (featureCols, [])
    | some rows =>
      let featureCols' :=
        if featureCols.length == 0 then
          match response.body.columns with
          | some cols => filterIdentityCols cols
          | none => featureCols
        else featureCols
      .ok (featureCols', rows.map (transformRow featureCols'))

/-- A batch's per-subject responses folded in completion order through
`fetchSubject`, threading the shared `featureCols` cell and appending
returned rows to the accumulator (a failed response leaves both untouched). -/
def processResponses (st : List String × List SubjectEmotionFeatureRow)
    (responses : List (HttpResponse FeatureMatrixResponse)) :
    List String × List SubjectEmotionFeatureRow :=
  responses.foldl (fun st response =>
    match fetchSubject st.1 response with
    | .error _ => st
    | .ok (cols, rows) => (cols, st.2 ++ rows)) st

/-- C7: a non-ok response makes the per-subject fetcher fail with an error
carrying the HTTP status, while an ok response whose row collection is absent
or malformed yields an empty row list (and no error). -/
theorem C7_fetch_error_behavior (featureCols : List String)
    (response : HttpResponse FeatureMatrixResponse) :
    (response.ok = false → fetchSubject featureCols response = .error response.status) ∧
    (response.ok = true → response.body.rows = none →
      fetchSubject featureCols response = .ok (featureCols, [])) := by
  constructor
  · intro hok
    simp [fetchSubject, hok]
  · intro hok hrows
    simp [fetchSubject, hok, hrows]

/-- Witness for C7: a 500 response fails with status 500, and an ok response
with an absent row collection returns zero rows. -/
theorem C7_fetch_error_behavior_witness :
    fetchSubject [] { ok := false, status := 500, body := { columns := none, rows := none } } =
      .error 500 ∧
    fetchSubject [] { ok := true, status := 200, body := { columns := none, rows := none } } =
      .ok ([], []) :=
  ⟨(C7_fetch_error_behavior [] _).1 rfl, (C7_fetch_error_behavior [] _).2 rfl rfl⟩

theorem fetchSubject_featureCols_of_ne_nil {featureCols featureCols' : List String}
    {response : HttpResponse FeatureMatrixResponse}
    {rows : List SubjectEmotionFeatureRow}
    (hne : featureCols ≠ [])
    (h : fetchSubject featureCols response = .ok (featureCols', rows)) :
    featureCols' = featureCols := by
  unfold fetchSubject at h
  by_cases hok : response.ok
  · simp [hok] at h
    match hrows : response.body.rows with
    | none =>
      rw [hrows] at h
      simp at h
      exact h.1.symm
    | some rawRows =>
      rw [hrows] at h
      simp [hne] at h
      exact h.1.symm
  · simp [hok] at h

/-- A successful response with an absent row collection but a column list;
the capture step is skipped for it because the row check returns first. -/
def respMissingRows : HttpResponse FeatureMatrixResponse :=
  { ok := true, status := 200
    body := { columns := some ["Subject", "Emotion", "_color", "A"], rows := none } }

/-- A later successful response with a different column list. -/
def respOtherCols : HttpResponse FeatureMatrixResponse :=
  { ok := true, status := 200
    body := { columns := some ["B"], rows := some [] } }

/-- C8 counterexample: both responses are successful, yet the column set a
batch ends with is `["B"]` from the second response, not the first successful
response's (identity-excluded) column list `["A"]` — the capture is skipped
whenever a successful response lacks a row collection. -/
theorem C8_counterexample :
    respMissingRows.ok = true ∧
    filterIdentityCols (respMissingRows.body.columns.getD []) = ["A"] ∧
    (processResponses ([], []) [respMissingRows, respOtherCols]).1 = ["B"] ∧
    (["B"] : List String) ≠ ["A"] := by
  refine ⟨rfl, by decide, ?_, by decide⟩
  decide

/-- Whether a response establishes the column set when none is set yet: the
capture at line 898 runs only for an ok response that passed the row-collection
check, and it leaves the set non-empty only when the identity-filtered column
list is non-empty. -/
def capturesColumns (response : HttpResponse FeatureMatrixResponse) : Bool :=
  response.ok && response.body.rows.isSome &&
    !(filterIdentityCols (response.body.columns.getD [])).isEmpty

theorem fetchSubject_from_empty (response : HttpResponse FeatureMatrixResponse) :
    (capturesColumns response = true →
      fetchSubject [] response =
        .ok (filterIdentityCols (response.body.columns.getD []),
          (response.body.rows.getD []).map
            (transformRow (filterIdentityCols (response.body.columns.getD []))))) ∧
    (capturesColumns response = false →
      fetchSubject [] response = .error response.status ∨
      ∃ rows, fetchSubject [] response = .ok ([], rows)) := by
  constructor
  · intro hcap
    simp only [capturesColumns, Bool.and_eq_true, Bool.not_eq_true'] at hcap
    obtain ⟨⟨hok, hrows⟩, hcols⟩ := hcap
    obtain ⟨rawRows, hr⟩ := Option.isSome_iff_exists.mp hrows
    match hc : response.body.columns with
    | none =>
      rw [hc] at hcols
      simp [filterIdentityCols] at hcols
    | some cols =>
      simp [fetchSubject, hok, hr, hc]
  · intro hcap
    by_cases hok : response.ok
    · match hr : response.body.rows with
      | none =>
        right
        exact ⟨[], by simp [fetchSubject, hok, hr]⟩
      | some rawRows =>
        right
        have hfe : filterIdentityCols (response.body.columns.getD []) = [] := by
          unfold capturesColumns at hcap
          simp [hok, hr, List.isEmpty_iff] at hcap
          exact hcap
        match hc : response.body.columns with
        | none =>
          exact ⟨rawRows.map (transformRow []),
            by simp [fetchSubject, hok, hr, hc]⟩
        | some cols =>
          have hce : filterIdentityCols cols = [] := by
            rw [hc] at hfe
            simpa using hfe
          exact ⟨rawRows.map (transformRow []),
            by simp [fetchSubject, hok, hr, hc, hce]⟩
    · left
      simp [fetchSubject, hok]

theorem processResponses_established (featureCols : List String)
    (acc : List SubjectEmotionFeatureRow)
    (responses : List (HttpResponse FeatureMatrixResponse))
    (hne : featureCols ≠ []) :
    (processResponses (featureCols, acc) responses).1 = featureCols := by
  induction responses generalizing acc with
  | nil => rfl
  | cons response responses ih =>
    unfold processResponses
    rw [List.foldl_cons]
    match hfetch : fetchSubject featureCols response with
    | .error _ => exact ih acc
    | .ok (cols, rows) =>
      have hcols : cols = featureCols :=
        fetchSubject_featureCols_of_ne_nil hne hfetch
      subst hcols
      exact ih (acc ++ rows)

theorem processResponses_capture (acc : List SubjectEmotionFeatureRow)
    (responses : List (HttpResponse FeatureMatrixResponse)) :
    (processResponses ([], acc) responses).1 =
      ((responses.find? capturesColumns).map
        (fun response => filterIdentityCols (response.body.columns.getD []))).getD [] := by
  induction responses generalizing acc with
  | nil => rfl
  | cons r rest ih =>
    have hstep : processResponses ([], acc) (r :: rest) =
        processResponses
          (match fetchSubject [] r with
            | .error _ => ([], acc)
            | .ok (cols, rows) => (cols, acc ++ rows)) rest := rfl
    by_cases hcap : capturesColumns r
    · have hfetch := (fetchSubject_from_empty r).1 hcap
      rw [hstep, hfetch, List.find?_cons_of_pos rest hcap]
      have hne : filterIdentityCols (r.body.columns.getD []) ≠ [] := by
        simp only [capturesColumns, Bool.and_eq_true, Bool.not_eq_true'] at hcap
        simp [List.isEmpty_iff] at hcap
        exact hcap.2
      simp only [Option.map_some', Option.getD_some]
      exact processResponses_established _ _ _ hne
    · have hfalse : capturesColumns r = false := by simpa using hcap
      rw [hstep, List.find?_cons_of_neg rest hcap]
      rcases (fetchSubject_from_empty r).2 hfalse with herr | ⟨rows, hok⟩
      · rw [herr]
        exact ih acc
      · rw [hok]
        exact ih (acc ++ rows)

theorem fetchSubject_rows_numeric (featureCols : List String)
    (response : HttpResponse FeatureMatrixResponse)
    (featureCols' : List String) (rows : List SubjectEmotionFeatureRow)
    (hfetch : fetchSubject featureCols response = .ok (featureCols', rows)) :
    ∀ r ∈ rows, ∃ item ∈ response.body.rows.getD [],
      r = transformRow featureCols' item ∧
      ∀ p : String × Int, (p ∈ r.features ↔
        p.1 ∈ featureCols' ∧
        (item.fields.find? (fun q => q.1 == p.1)).map Prod.snd =
          some (JsonValue.num p.2)) := by
  intro r hr
  unfold fetchSubject at hfetch
  by_cases hok : response.ok
  · simp [hok] at hfetch
    match hrows : response.body.rows with
    | none =>
      rw [hrows] at hfetch
      simp at hfetch
      rw [hfetch.2] at hr
      exact absurd hr (List.not_mem_nil r)
    | some rawRows =>
      rw [hrows] at hfetch
      simp at hfetch
      obtain ⟨hfc, hmap⟩ := hfetch
      rw [← hmap] at hr
      obtain ⟨item, hitem, htr⟩ := List.mem_map.mp hr
      refine ⟨item, by simp [hrows, hitem], ?_, ?_⟩
      · rw [← htr, hfc]
      · intro p
        obtain ⟨a, b⟩ := p
        rw [← htr, hfc]
        unfold transformRow
        simp only [List.mem_filterMap]
        constructor
        · rintro ⟨col, hcol, hfcol⟩
          match hv : (item.fields.find? (fun q => q.1 == col)).map Prod.snd with
          | some (JsonValue.num n) =>
            rw [hv] at hfcol
            simp at hfcol
            obtain ⟨rfl, rfl⟩ := hfcol
            exact ⟨hcol, hv⟩
          | some (JsonValue.str s) =>
            rw [hv] at hfcol
            simp at hfcol
          | none =>
            rw [hv] at hfcol
            simp at hfcol
        · rintro ⟨ha, hb⟩
          refine ⟨a, ha, ?_⟩
          rw [hb]
  · simp [hok] at hfetch

/-- C8 amended: (i) starting from an empty column set, the set a batch ends
with is the identity-filtered column list of the *first* response that is
successful, carries a row collection, and whose filtered column list is
non-empty (a successful response without a row collection, or whose column
list filters to nothing, is skipped); (ii) once the set is non-empty,
processing further responses of the batch never changes it; (iii) every
projected row's feature map holds exactly the fields of the established set
whose raw value is a number. -/
theorem C8_column_capture_stable :
    (∀ (acc : List SubjectEmotionFeatureRow)
        (responses : List (HttpResponse FeatureMatrixResponse)),
      (processResponses ([], acc) responses).1 =
        ((responses.find? capturesColumns).map
          (fun response => filterIdentityCols (response.body.columns.getD []))).getD []) ∧
    (∀ (featureCols : List String) (acc : List SubjectEmotionFeatureRow)
        (responses : List (HttpResponse FeatureMatrixResponse)),
      featureCols ≠ [] →
      (processResponses (featureCols, acc) responses).1 = featureCols) ∧
    (∀ (featureCols : List String) (response : HttpResponse FeatureMatrixResponse)
        (featureCols' : List String) (rows : List SubjectEmotionFeatureRow),
      fetchSubject featureCols response = .ok (featureCols', rows) →
      ∀ r ∈ rows, ∃ item ∈ response.body.rows.getD [],
        r = transformRow featureCols' item ∧
        ∀ p : String × Int, (p ∈ r.features ↔
          p.1 ∈ featureCols' ∧
          (item.fields.find? (fun q => q.1 == p.1)).map Prod.snd =
            some (JsonValue.num p.2))) :=
  ⟨processResponses_capture, processResponses_established, fetchSubject_rows_numeric⟩

/-- A response for a subject whose sole dynamic field is the number `B = 7`. -/
def respWithFieldB : HttpResponse FeatureMatrixResponse :=
  { ok := true, status := 200
    body := { columns := some ["ignored"]
              rows := some [{ Subject := 1, Emotion := "joy", _color := "c"
                              fields := [("B", JsonValue.num 7)] }] } }

/-- The row `fetchSubject` produces for `respWithFieldB` under column set
`["B"]`. -/
def rowWithFieldB : SubjectEmotionFeatureRow :=
  { subjectId := 1, emotion := "joy", color := "c", features := [("B", 7)] }

/-- Witness for C8: the batch `[respMissingRows, respOtherCols]` starting
from an empty set ends with the filtered columns of its first qualifying
response; an already-established set `["A"]` survives a response carrying
different columns; and the row projected from `respWithFieldB` under the set
`["B"]` holds exactly its numeric `B` field. -/
theorem C8_column_capture_stable_witness :
    (processResponses ([], []) [respMissingRows, respOtherCols]).1 =
      ((([respMissingRows, respOtherCols] :
          List (HttpResponse FeatureMatrixResponse)).find? capturesColumns).map
        (fun response => filterIdentityCols (response.body.columns.getD []))).getD [] ∧
    (processResponses (["A"], []) [respOtherCols]).1 = ["A"] ∧
    (∃ item ∈ respWithFieldB.body.rows.getD [],
      rowWithFieldB = transformRow ["B"] item ∧
      ∀ p : String × Int, (p ∈ rowWithFieldB.features ↔
        p.1 ∈ ["B"] ∧
        (item.fields.find? (fun q => q.1 == p.1)).map Prod.snd =
          some (JsonValue.num p.2))) :=
  ⟨C8_column_capture_stable.1 [] [respMissingRows, respOtherCols],
    C8_column_capture_stable.2.1 ["A"] [] [respOtherCols] (by decide),
    C8_column_capture_stable.2.2 ["B"] respWithFieldB ["B"] [rowWithFieldB] rfl
      rowWithFieldB (by simp)⟩

/-! ## Bounded task scheduler

`processNext` and the initial worker loop of `fetchFeatureMatrix` form a
single-threaded cooperative scheduler: the initial loop synchronously shifts
`min(CONCURRENCY_LIMIT, subjectIds.length)` subjects off the queue and starts
their fetches; when a fetch settles, its continuation runs atomically (push
rows / bump `completedCount` / publish on success, log on failure) and then
shifts the next queued subject, which starts the next fetch before the next
suspension point.  The embedding models one continuation run as one `Step`;
the only nondeterminism is which in-flight fetch settles first.  The fetch
outcome of a subject is abstracted as `fetchResult : Nat → Option (List
SubjectEmotionFeatureRow)` (`none` = the fetch throws, `some rows` = it
returns `rows`). -/

/-- `CONCURRENCY_LIMIT = 5`. -/
def CONCURRENCY_LIMIT : Nat := 5

/-- The scheduler's mutable state: the remaining queue, the subjects whose
fetches are currently pending, the subjects already processed (in completion
order), the shared accumulator `allRows`, `completedCount`, and the list of
completed-counts published to `setLoadingProgress` so far. -/
structure BatchState where
  queue : List Nat
  inFlight : List Nat
  doneSubjects : List Nat
  allRows : List SubjectEmotionFeatureRow
  completedCount : Nat
  progressLog : List Nat
deriving Repr, DecidableEq

/-- The state right after the initial worker loop: the first
`min(CONCURRENCY_LIMIT, subjectIds.length)` subjects have been shifted off
the queue and their fetches started. -/
def initState (subjectIds : List Nat) : BatchState :=
  { queue := subjectIds.drop CONCURRENCY_LIMIT
    inFlight := subjectIds.take CONCURRENCY_LIMIT
    doneSubjects := []
    allRows := []
    completedCount := 0
    progressLog := [] }

/-- The continuation run when the fetch of subject `s` settles, with `pre`
and `post` the other in-flight subjects: on success the rows are appended,
the count bumped and published; on failure only the error is logged; then
the same worker shifts the next queued subject (or finishes if the queue is
empty). -/
def completeStep (fetchResult : Nat → Option (List SubjectEmotionFeatureRow))
    (σ : BatchState) (pre post : List Nat) (s : Nat) : BatchState :=
  let σ₁ :=
    match fetchResult s with
    | some rows =>
        { σ with allRows := σ.allRows ++ rows
                 completedCount := σ.completedCount + 1
                 progressLog := σ.progressLog ++ [σ.completedCount + 1] }
    | none => σ
  match σ.queue with
  | [] =>
      { σ₁ with inFlight := pre ++ post
                doneSubjects := σ.doneSubjects ++ [s] }
  | q :: qs =>
      { σ₁ with queue := qs
                inFlight := pre ++ post ++ [q]
                doneSubjects := σ.doneSubjects ++ [s] }

/-- One scheduler transition: some in-flight subject's fetch settles and its
continuation runs to the next suspension point. -/
inductive Step (fetchResult : Nat → Option (List SubjectEmotionFeatureRow)) :
    BatchState → BatchState → Prop
  | complete (pre post : List Nat) (s : Nat) (σ : BatchState)
      (h : σ.inFlight = pre ++ s :: post) :
      Step fetchResult σ (completeStep fetchResult σ pre post s)

/-- The states a batch run over `subjectIds` can reach. -/
def Reachable (fetchResult : Nat → Option (List SubjectEmotionFeatureRow))
    (subjectIds : List Nat) (σ : BatchState) : Prop :=
  Relation.ReflTransGen (Step fetchResult) (initState subjectIds) σ

/-- The inductive invariant of a batch run. -/
structure BatchInv (fetchResult : Nat → Option (List SubjectEmotionFeatureRow))
    (subjectIds : List Nat) (σ : BatchState) : Prop where
  dispatch_order : ∃ p : List Nat, p ++ σ.queue = subjectIds ∧
    (σ.doneSubjects ++ σ.inFlight) ~ p
  completed_eq : σ.completedCount =
    (σ.doneSubjects.filter (fun s => (fetchResult s).isSome)).length
  rows_eq : σ.allRows =
    σ.doneSubjects.flatMap (fun s => (fetchResult s).getD [])
  log_eq : σ.progressLog = List.range' 1 σ.completedCount
  worker_count : σ.inFlight.length =
    min CONCURRENCY_LIMIT (σ.inFlight.length + σ.queue.length)

theorem batchInv_init (fetchResult : Nat → Option (List SubjectEmotionFeatureRow))
    (subjectIds : List Nat) :
    BatchInv fetchResult subjectIds (initState subjectIds) := by
  refine ⟨⟨subjectIds.take CONCURRENCY_LIMIT, ?_, by simp [initState]⟩,
    rfl, rfl, rfl, ?_⟩
  · simp [initState]
  · simp only [initState, List.length_take, List.length_drop]
    omega

theorem completeStep_queue (fetchResult : Nat → Option (List SubjectEmotionFeatureRow))
    (σ : BatchState) (pre post : List Nat) (s : Nat) :
    (completeStep fetchResult σ pre post s).queue = σ.queue.tail := by
  cases hf : fetchResult s <;> cases hq : σ.queue <;> simp [completeStep, hf, hq]

theorem completeStep_inFlight (fetchResult : Nat → Option (List SubjectEmotionFeatureRow))
    (σ : BatchState) (pre post : List Nat) (s : Nat) :
    (completeStep fetchResult σ pre post s).inFlight = pre ++ post ++ σ.queue.take 1 := by
  cases hf : fetchResult s <;> cases hq : σ.queue <;> simp [completeStep, hf, hq]

theorem completeStep_doneSubjects (fetchResult : Nat → Option (List SubjectEmotionFeatureRow))
    (σ : BatchState) (pre post : List Nat) (s : Nat) :
    (completeStep fetchResult σ pre post s).doneSubjects = σ.doneSubjects ++ [s] := by
  cases hf : fetchResult s <;> cases hq : σ.queue <;> simp [completeStep, hf, hq]

theorem completeStep_allRows (fetchResult : Nat → Option (List SubjectEmotionFeatureRow))
    (σ : BatchState) (pre post : List Nat) (s : Nat) :
    (completeStep fetchResult σ pre post s).allRows =
      σ.allRows ++ (fetchResult s).getD [] := by
  cases hf : fetchResult s <;> cases hq : σ.queue <;> simp [completeStep, hf, hq]

theorem completeStep_completedCount (fetchResult : Nat → Option (List SubjectEmotionFeatureRow))
    (σ : BatchState) (pre post : List Nat) (s : Nat) :
    (completeStep fetchResult σ pre post s).completedCount =
      σ.completedCount + (if (fetchResult s).isSome then 1 else 0) := by
  cases hf : fetchResult s <;> cases hq : σ.queue <;> simp [completeStep, hf, hq]

theorem completeStep_progressLog (fetchResult : Nat → Option (List SubjectEmotionFeatureRow))
    (σ : BatchState) (pre post : List Nat) (s : Nat) :
    (completeStep fetchResult σ pre post s).progressLog =
      σ.progressLog ++ (if (fetchResult s).isSome then [σ.completedCount + 1] else []) := by
  cases hf : fetchResult s <;> cases hq : σ.queue <;> simp [completeStep, hf, hq]

theorem batchInv_step {fetchResult : Nat → Option (List SubjectEmotionFeatureRow)}
    {subjectIds : List Nat} {σ σ' : BatchState}
    (hInv : BatchInv fetchResult subjectIds σ) (hStep : Step fetchResult σ σ') :
    BatchInv fetchResult subjectIds σ' := by
  obtain ⟨pre, post, s, σ, hif⟩ := hStep
  obtain ⟨⟨p, hp, hperm⟩, hcomp, hrows, hlog, hwork⟩ := hInv
  refine ⟨⟨p ++ σ.queue.take 1, ?_, ?_⟩, ?_, ?_, ?_, ?_⟩
  · rw [completeStep_queue, List.append_assoc, ← List.drop_one,
      List.take_append_drop, hp]
  · rw [completeStep_doneSubjects, completeStep_inFlight,
      List.perm_iff_count]
    intro a
    have hcount := hperm.count_eq a
    rw [hif] at hcount
    simp only [List.count_append, List.count_cons, List.count_nil,
      beq_iff_eq] at hcount ⊢
    omega
  · rw [completeStep_completedCount, completeStep_doneSubjects]
    cases hf : fetchResult s <;>
      simp [hf, List.filter_append, hcomp]
  · rw [completeStep_allRows, completeStep_doneSubjects]
    cases hf : fetchResult s <;>
      simp [hf, List.flatMap_append, hrows]
  · rw [completeStep_progressLog, completeStep_completedCount]
    cases hf : fetchResult s <;>
      simp [hf, hlog, List.range'_concat, Nat.add_comm]
  · rw [completeStep_inFlight, completeStep_queue]
    have hiflen : σ.inFlight.length = pre.length + (post.length + 1) := by
      rw [hif]; simp
    have hC : CONCURRENCY_LIMIT = 5 := rfl
    rw [hiflen, hC] at hwork
    simp only [List.length_append, List.length_take, List.length_tail, hC]
    omega

theorem reachable_inv {fetchResult : Nat → Option (List SubjectEmotionFeatureRow)}
    {subjectIds : List Nat} {σ : BatchState}
    (h : Reachable fetchResult subjectIds σ) :
    BatchInv fetchResult subjectIds σ := by
  induction h with
  | refl => exact batchInv_init fetchResult subjectIds
  | tail _ hs ih => exact batchInv_step ih hs

/-- At a final state the queue is exhausted and the processed subjects are a
permutation of the input list. -/
theorem final_state_facts {fetchResult : Nat → Option (List SubjectEmotionFeatureRow)}
    {subjectIds : List Nat} {σ : BatchState}
    (h : Reachable fetchResult subjectIds σ) (hfin : σ.inFlight = []) :
    σ.queue = [] ∧ σ.doneSubjects ~ subjectIds := by
  obtain ⟨⟨p, hp, hperm⟩, _, _, _, hwork⟩ := reachable_inv h
  rw [hfin] at hperm hwork
  simp only [List.length_nil, Nat.zero_add] at hwork
  have hq : σ.queue = [] := by
    have : σ.queue.length = 0 := by
      unfold CONCURRENCY_LIMIT at hwork
      omega
    exact List.length_eq_zero.mp this
  rw [hq] at hp
  simp only [List.append_nil] at hp hperm
  rw [hp] at hperm
  exact ⟨hq, hperm⟩

/-- A non-final state can always take a step: no per-subject failure aborts
the run. -/
theorem nonfinal_can_step (fetchResult : Nat → Option (List SubjectEmotionFeatureRow))
    (σ : BatchState) (hne : σ.inFlight ≠ []) :
    ∃ σ', Step fetchResult σ σ' := by
  match hif : σ.inFlight with
  | [] => exact absurd hif hne
  | s :: rest =>
    exact ⟨completeStep fetchResult σ [] rest s,
      Step.complete [] rest s σ (by simpa using hif)⟩

theorem perm_flatMap {α β : Type} {l₁ l₂ : List α} (h : l₁ ~ l₂) (f : α → List β) :
    l₁.flatMap f ~ l₂.flatMap f := by
  induction h with
  | nil => exact List.Perm.refl _
  | cons x _ ih => simpa [List.flatMap_cons] using ih.append_left (f x)
  | swap x y l =>
      simp only [List.flatMap_cons]
      rw [← List.append_assoc, ← List.append_assoc]
      exact List.perm_append_comm.append_right _
  | trans _ _ ih₁ ih₂ => exact ih₁.trans ih₂

theorem flatMap_getD_filter (fetchResult : Nat → Option (List SubjectEmotionFeatureRow))
    (l : List Nat) :
    (l.filter (fun s => (fetchResult s).isSome)).flatMap
        (fun s => (fetchResult s).getD []) =
      l.flatMap (fun s => (fetchResult s).getD []) := by
  induction l with
  | nil => rfl
  | cons s l ih =>
    by_cases h : (fetchResult s).isSome
    · simp [List.filter_cons, h, List.flatMap_cons, ih]
    · have hn : fetchResult s = none := Option.not_isSome_iff_eq_none.mp h
      simp [List.filter_cons, h, List.flatMap_cons, hn, ih]

/-- C3: every reachable state keeps exactly `min(CONCURRENCY_LIMIT, remaining)`
fetches pending (in particular never more than `CONCURRENCY_LIMIT = 5`), the
initial worker loop starts `min(CONCURRENCY_LIMIT, subjectIds.length)` of
them, and a completion while the queue is non-empty immediately shifts the
next subject — the worker count stays the same and the queue shrinks by one
in a single transition (continuous replenishment). -/
theorem C3_bounded_workers (fetchResult : Nat → Option (List SubjectEmotionFeatureRow))
    (subjectIds : List Nat) (σ : BatchState)
    (hσ : Reachable fetchResult subjectIds σ) :
    σ.inFlight.length = min CONCURRENCY_LIMIT (σ.inFlight.length + σ.queue.length) ∧
    σ.inFlight.length ≤ CONCURRENCY_LIMIT ∧
    (initState subjectIds).inFlight.length = min CONCURRENCY_LIMIT subjectIds.length ∧
    (∀ σ', Step fetchResult σ σ' → σ.queue ≠ [] →
      σ'.inFlight.length = σ.inFlight.length ∧
      σ'.queue.length + 1 = σ.queue.length) := by
  have hwork := (reachable_inv hσ).worker_count
  have hC : CONCURRENCY_LIMIT = 5 := rfl
  refine ⟨hwork, ?_, ?_, ?_⟩
  · rw [hC] at hwork ⊢
    omega
  · simp [initState, List.length_take]
  · intro σ' hStep hqne
    obtain ⟨pre, post, s, σ, hif⟩ := hStep
    match hq : σ.queue with
    | [] => exact absurd hq hqne
    | q :: qs =>
      rw [completeStep_inFlight, completeStep_queue, hq, hif]
      simp

/-- Witness for C3 at `subjectIds = [1, 2, 3, 4, 5, 6]` and the state right
after the initial worker loop: 5 fetches are pending. -/
theorem C3_bounded_workers_witness :
    (initState [1, 2, 3, 4, 5, 6]).inFlight.length =
      min CONCURRENCY_LIMIT
        ((initState [1, 2, 3, 4, 5, 6]).inFlight.length +
          (initState [1, 2, 3, 4, 5, 6]).queue.length) :=
  (C3_bounded_workers (fun _ => some []) [1, 2, 3, 4, 5, 6]
    (initState [1, 2, 3, 4, 5, 6]) Relation.ReflTransGen.refl).1

/-- A fetch outcome where every subject's fetch throws. -/
def failFetch : Nat → Option (List SubjectEmotionFeatureRow) := fun _ => none

/-- The final state of the batch over `[1]` under `failFetch`. -/
def failFinal : BatchState :=
  { queue := [], inFlight := [], doneSubjects := [1], allRows := []
    completedCount := 0, progressLog := [] }

/-- C2 counterexample: the batch over the single subject `1` whose fetch
fails runs to completion (`inFlight = []`), yet `completedCount` stays `0`
and nothing is ever published: the failed subject does not count as
completed, and the completed-count never reaches the batch total `1`. -/
theorem C2_counterexample :
    Reachable failFetch [1] failFinal ∧
    failFinal.inFlight = [] ∧
    failFinal.progressLog = [] ∧
    failFinal.completedCount = 0 ∧
    ([1] : List Nat).length = 1 :=
  ⟨Relation.ReflTransGen.single
      (@Step.complete failFetch [] [] 1 (initState [1]) rfl),
    rfl, rfl, rfl, rfl⟩

/-- C2 amended: the published progress values are exactly `1, 2, …,
completedCount` (hence non-decreasing, each value published once), the count
is bumped only by successful fetches, and at batch end it equals the number
of subjects whose fetch succeeded: it reaches the batch total exactly once
when every fetch succeeds, and never reaches it when some fetch fails. -/
theorem C2_progress_monotone (fetchResult : Nat → Option (List SubjectEmotionFeatureRow))
    (subjectIds : List Nat) (σ : BatchState)
    (hσ : Reachable fetchResult subjectIds σ) (hne : subjectIds ≠ []) :
    σ.progressLog = List.range' 1 σ.completedCount ∧
    List.Pairwise (· ≤ ·) σ.progressLog ∧
    (σ.inFlight = [] →
      σ.completedCount =
        (subjectIds.filter (fun s => (fetchResult s).isSome)).length ∧
      ((∀ s ∈ subjectIds, (fetchResult s).isSome) →
        σ.progressLog.count subjectIds.length = 1) ∧
      ((∃ s ∈ subjectIds, fetchResult s = none) →
        subjectIds.length ∉ σ.progressLog)) := by
  have hlog := (reachable_inv hσ).log_eq
  have hcomp := (reachable_inv hσ).completed_eq
  refine ⟨hlog, ?_, ?_⟩
  · rw [hlog]
    exact (List.pairwise_lt_range' 1 σ.completedCount).imp le_of_lt
  · intro hfin
    obtain ⟨_, hdone⟩ := final_state_facts hσ hfin
    have hfilt : σ.completedCount =
        (subjectIds.filter (fun s => (fetchResult s).isSome)).length := by
      rw [hcomp]
      exact (hdone.filter _).length_eq
    refine ⟨hfilt, ?_, ?_⟩
    · intro hall
      have hfeq : subjectIds.filter (fun s => (fetchResult s).isSome) = subjectIds :=
        List.filter_eq_self.mpr (by simpa using hall)
      have hcnt : σ.completedCount = subjectIds.length := by rw [hfilt, hfeq]
      rw [hlog, hcnt]
      refine List.count_eq_one_of_mem (List.nodup_range' 1 subjectIds.length) ?_
      rw [List.mem_range'_1]
      have : subjectIds.length ≠ 0 := fun h => hne (List.length_eq_zero.mp h)
      omega
    · intro ⟨s, hs, hfail⟩
      have hlt : (subjectIds.filter (fun s => (fetchResult s).isSome)).length <
          subjectIds.length :=
        List.length_filter_lt_length_iff_exists.mpr ⟨s, hs, by simp [hfail]⟩
      rw [hlog, List.mem_range'_1]
      omega

/-- A minimal feature row used in concrete runs. -/
def sampleRow (s : Nat) : SubjectEmotionFeatureRow :=
  { subjectId := s, emotion := "joy", color := "c", features := [] }

/-- A fetch outcome where every subject's fetch returns one row. -/
def okFetch : Nat → Option (List SubjectEmotionFeatureRow) :=
  fun s => some [sampleRow s]

/-- The final state of the batch over `[1]` under `okFetch`. -/
def okFinal : BatchState :=
  { queue := [], inFlight := [], doneSubjects := [1], allRows := [sampleRow 1]
    completedCount := 1, progressLog := [1] }

/-- Witness for C2 on the one-subject all-success run. -/
theorem C2_progress_monotone_witness :
    okFinal.progressLog = List.range' 1 okFinal.completedCount :=
  (C2_progress_monotone okFetch [1] okFinal
    (Relation.ReflTransGen.single
      (@Step.complete okFetch [] [] 1 (initState [1]) rfl))
    (by decide)).1

/-- C4: a batch never gets stuck before the queue and the in-flight set are
exhausted — a failed fetch is absorbed by its worker's `catch` and the run
continues — and the final accumulator holds exactly the rows of the subjects
whose fetches succeeded (up to completion order). -/
theorem C4_failure_resilience (fetchResult : Nat → Option (List SubjectEmotionFeatureRow))
    (subjectIds : List Nat) (σ : BatchState)
    (hσ : Reachable fetchResult subjectIds σ) :
    (σ.inFlight ≠ [] → ∃ σ', Step fetchResult σ σ') ∧
    (σ.inFlight = [] →
      σ.allRows ~ (subjectIds.filter (fun s => (fetchResult s).isSome)).flatMap
        (fun s => (fetchResult s).getD [])) := by
  refine ⟨nonfinal_can_step fetchResult σ, ?_⟩
  intro hfin
  obtain ⟨_, hdone⟩ := final_state_facts hσ hfin
  rw [(reachable_inv hσ).rows_eq, flatMap_getD_filter]
  exact perm_flatMap hdone _

/-- A fetch outcome where subject 2's fetch throws and all others return one
row. -/
def mixedFetch : Nat → Option (List SubjectEmotionFeatureRow) :=
  fun s => if s == 2 then none else some [sampleRow s]

/-- Intermediate and final states of the batch over `[1, 2, 3]` under
`mixedFetch`. -/
def mixedMid1 : BatchState :=
  { queue := [], inFlight := [2, 3], doneSubjects := [1]
    allRows := [sampleRow 1], completedCount := 1, progressLog := [1] }

def mixedMid2 : BatchState :=
  { queue := [], inFlight := [3], doneSubjects := [1, 2]
    allRows := [sampleRow 1], completedCount := 1, progressLog := [1] }

def mixedFinal : BatchState :=
  { queue := [], inFlight := [], doneSubjects := [1, 2, 3]
    allRows := [sampleRow 1, sampleRow 3], completedCount := 2
    progressLog := [1, 2] }

theorem mixedRun : Reachable mixedFetch [1, 2, 3] mixedFinal := by
  have h1 : Step mixedFetch (initState [1, 2, 3]) mixedMid1 :=
    @Step.complete mixedFetch [] [2, 3] 1 (initState [1, 2, 3]) rfl
  have h2 : Step mixedFetch mixedMid1 mixedMid2 :=
    @Step.complete mixedFetch [] [3] 2 mixedMid1 rfl
  have h3 : Step mixedFetch mixedMid2 mixedFinal :=
    @Step.complete mixedFetch [] [] 3 mixedMid2 rfl
  exact Relation.ReflTransGen.tail
    (Relation.ReflTransGen.tail (Relation.ReflTransGen.single h1) h2) h3

/-- Witness for C4 on the run `[1, 2, 3]` where subject 2's fetch fails: the
run reaches the final state and its accumulator holds exactly the rows of
subjects 1 and 3. -/
theorem C4_failure_resilience_witness :
    mixedFinal.allRows ~
      (([1, 2, 3] : List Nat).filter (fun s => (mixedFetch s).isSome)).flatMap
        (fun s => (mixedFetch s).getD []) :=
  (C4_failure_resilience mixedFetch [1, 2, 3] mixedFinal mixedRun).2 rfl

/-! ## PCA request orchestrator

The `onClick` handler of the Generate-PCA button: consult the PCA cache,
otherwise fetch `/pca/frequency` and cache the parsed response, then validate
`data_points` and join the points onto the table's rows. -/

/-- The join of `dataWithPCA`: one output row per returned projection point,
taking the features of the first matching `(subjectId, emotion)` row of
`data` (or an empty map when no row matches) and attaching the point's
coordinates. -/
def joinPCAPoints (data : List SubjectEmotionFeatureRow)
    (points : List PCADataPoint) : List SubjectEmotionFeatureRow :=
  points.map (fun item =>
    let matchingRow := data.find? (fun d =>
      d.subjectId == item.subject_id && d.emotion == item.emotion)
    { subjectId := item.subject_id
      emotion := item.emotion
      color := item.color
      features := match matchingRow with
        | some r => r.features
        | none => []
      pc1 := some item.pc1
      pc2 := some item.pc2 })

/-- The validation and join performed on a PCA response (cached or fresh):
fails when `data_points` is absent, otherwise returns the joined rows and the
variance-explained pair handed to `onGeneratePCA`. -/
def validateAndJoin (pcaResult : FrequencyPCAResponse)
    (data : List SubjectEmotionFeatureRow) :
    Except String (List SubjectEmotionFeatureRow × (Int × Int)) :=
  match pcaResult.data_points with
  | none => .error "Invalid PCA response: data_points not found"
  | some points => .ok (joinPCAPoints data points, pcaResult.variance_explained)

/-- The PCA cache, keyed by the cache key; `set` prepends, `get` returns the
most recent binding (JS `Map` overwrite semantics). -/
abbrev PCACache := List (String × FrequencyPCAResponse × Nat)

def pcaCacheGet (cache : PCACache) (key : String) :
    Option (FrequencyPCAResponse × Nat) :=
  (cache.find? (fun e => e.1 == key)).map Prod.snd

def pcaCacheSet (cache : PCACache) (key : String)
    (v : FrequencyPCAResponse × Nat) : PCACache :=
  (key, v) :: cache

/-- The network outcome of the aggregate PCA request. -/
inductive NetResult (β : Type) where
  | httpError (status : Nat)
  | ok (body : β)

/-- The fetch branch of the handler: a non-ok response throws before any
cache write; an ok response is cached immediately after parsing, before the
`data_points` validation runs. -/
def runPCAFetch (cache : PCACache) (key : String) (now : Nat)
    (net : NetResult FrequencyPCAResponse) (data : List SubjectEmotionFeatureRow) :
    PCACache × Except String (List SubjectEmotionFeatureRow × (Int × Int)) :=
  match net with
  | .httpError status =>
      (cache, .error ("HTTP error! status: " ++ toString status))
  | .ok pcaResult =>
      (pcaCacheSet cache key (pcaResult, now), validateAndJoin pcaResult data)

/-- The whole click handler: a fresh cache entry short-circuits the fetch;
otherwise `runPCAFetch` runs.  Returns the cache contents after the call and
the handler's outcome. -/
def runPCAClick (cache : PCACache) (key : String) (now : Nat)
    (net : NetResult FrequencyPCAResponse) (data : List SubjectEmotionFeatureRow) :
    PCACache × Except String (List SubjectEmotionFeatureRow × (Int × Int)) :=
  match pcaCacheGet cache key with
  | some cachedPCA =>
      if now - cachedPCA.2 < CACHE_DURATION_MS then
        (cache, validateAndJoin cachedPCA.1 data)
      else runPCAFetch cache key now net data
  | none => runPCAFetch cache key now net data

/-- Three table rows and two projection points matching the first two. -/
def rowC1A : SubjectEmotionFeatureRow :=
  { subjectId := 1, emotion := "joy", color := "r", features := [("ECG_mean", 5)] }

def rowC1B : SubjectEmotionFeatureRow :=
  { subjectId := 1, emotion := "fear", color := "g", features := [("ECG_mean", 6)] }

def rowC1C : SubjectEmotionFeatureRow :=
  { subjectId := 2, emotion := "joy", color := "b", features := [("ECG_mean", 7)] }

def pointC1A : PCADataPoint :=
  { subject_id := 1, emotion := "joy", color := "r", pc1 := 10, pc2 := 20 }

def pointC1B : PCADataPoint :=
  { subject_id := 1, emotion := "fear", color := "g", pc1 := 30, pc2 := 40 }

/-- C1 counterexample: with 3 input rows and a response containing points for
2 of the (subject, emotion) pairs, the joined collection has only 2 rows —
the third input row is dropped entirely, not passed through unprojected. -/
theorem C1_counterexample :
    (joinPCAPoints [rowC1A, rowC1B, rowC1C] [pointC1A, pointC1B]).length = 2 ∧
    ([rowC1A, rowC1B, rowC1C] : List SubjectEmotionFeatureRow).length = 3 ∧
    (joinPCAPoints [rowC1A, rowC1B, rowC1C] [pointC1A, pointC1B]).filter
        (fun r => r.subjectId == rowC1C.subjectId && r.emotion == rowC1C.emotion) =
      [] := by
  refine ⟨rfl, rfl, ?_⟩
  decide

/-- C1 amended: the join produces exactly one row per returned projection
point (so it contains the input rows only insofar as points match them):
every output row carries some point's identity and coordinates, every point
yields an output row, an output row's features are those of a matching input
row when one exists and empty otherwise, and an input row with no matching
point has no corresponding output row — it is dropped, not passed through. -/
theorem C1_join_maps_points (data : List SubjectEmotionFeatureRow)
    (points : List PCADataPoint) :
    (joinPCAPoints data points).length = points.length ∧
    (∀ r ∈ joinPCAPoints data points, ∃ p ∈ points,
      r.subjectId = p.subject_id ∧ r.emotion = p.emotion ∧
      r.pc1 = some p.pc1 ∧ r.pc2 = some p.pc2) ∧
    (∀ p ∈ points, ∃ r ∈ joinPCAPoints data points,
      r.subjectId = p.subject_id ∧ r.emotion = p.emotion) ∧
    (∀ r ∈ joinPCAPoints data points,
      r.features = [] ∨ ∃ d ∈ data,
        d.subjectId = r.subjectId ∧ d.emotion = r.emotion ∧
        r.features = d.features) ∧
    (∀ d ∈ data, (∀ p ∈ points,
        ¬(p.subject_id = d.subjectId ∧ p.emotion = d.emotion)) →
      ∀ r ∈ joinPCAPoints data points,
        ¬(r.subjectId = d.subjectId ∧ r.emotion = d.emotion)) := by
  refine ⟨List.length_map _ _, ?_, ?_, ?_, ?_⟩
  · intro r hr
    obtain ⟨p, hp, hmap⟩ := List.mem_map.mp hr
    exact ⟨p, hp, by rw [← hmap], by rw [← hmap], by rw [← hmap], by rw [← hmap]⟩
  · intro p hp
    refine ⟨_, List.mem_map.mpr ⟨p, hp, rfl⟩, rfl, rfl⟩
  · intro r hr
    obtain ⟨p, hp, hmap⟩ := List.mem_map.mp hr
    match hfind : data.find? (fun d =>
        d.subjectId == p.subject_id && d.emotion == p.emotion) with
    | none =>
      left
      rw [← hmap]
      simp only [hfind]
    | some d =>
      right
      have hmem := List.mem_of_find?_eq_some hfind
      have hpred := List.find?_some hfind
      simp only [Bool.and_eq_true, beq_iff_eq] at hpred
      refine ⟨d, hmem, ?_, ?_, ?_⟩
      · rw [← hmap]; exact hpred.1
      · rw [← hmap]; exact hpred.2
      · rw [← hmap]; simp only [hfind]
  · intro d _ hnomatch r hr ⟨hrs, hre⟩
    obtain ⟨p, hp, hmap⟩ := List.mem_map.mp hr
    have hps : p.subject_id = d.subjectId := by rw [← hrs, ← hmap]
    have hpe : p.emotion = d.emotion := by rw [← hre, ← hmap]
    exact hnomatch p hp ⟨hps, hpe⟩

/-- Witness for C1 on the 3-row / 2-point instance: the no-match row
`rowC1C` has no corresponding output row. -/
theorem C1_join_maps_points_witness :
    ∀ r ∈ joinPCAPoints [rowC1A, rowC1B, rowC1C] [pointC1A, pointC1B],
      ¬(r.subjectId = rowC1C.subjectId ∧ r.emotion = rowC1C.emotion) :=
  (C1_join_maps_points [rowC1A, rowC1B, rowC1C] [pointC1A, pointC1B]).2.2.2.2
    rowC1C (by decide) (by decide)

/-- The response of a 200 PCA request whose body lacks `data_points`. -/
def badPCAResponse : FrequencyPCAResponse :=
  { variance_explained := (0, 0), data_points := none }

/-- C5 counterexample: on a cache miss, an ok response without a point
collection still gets cached — the handler then fails with the protocol
error, but the PCA cache for the key has been written. -/
theorem C5_counterexample :
    (runPCAClick [] "k" 0 (.ok badPCAResponse) []).2 =
      .error "Invalid PCA response: data_points not found" ∧
    (runPCAClick [] "k" 0 (.ok badPCAResponse) []).1 = [("k", badPCAResponse, 0)] ∧
    ([("k", badPCAResponse, 0)] : PCACache) ≠ [] :=
  ⟨rfl, rfl, by simp⟩

/-- C5 amended: the cache is never written on a non-success HTTP response
(the throw precedes the write), but on a cache miss any ok response is
written to the cache before the point-collection validation — including a
response whose point collection is absent, for which the operation then
fails. -/
theorem C5_cache_write_order (cache : PCACache) (key : String) (now : Nat)
    (data : List SubjectEmotionFeatureRow) :
    (∀ status : Nat,
      (runPCAClick cache key now (.httpError status) data).1 = cache) ∧
    (∀ pcaResult : FrequencyPCAResponse, pcaCacheGet cache key = none →
      (runPCAClick cache key now (.ok pcaResult) data).1 =
        pcaCacheSet cache key (pcaResult, now) ∧
      (pcaResult.data_points = none →
        (runPCAClick cache key now (.ok pcaResult) data).2 =
          .error "Invalid PCA response: data_points not found")) := by
  constructor
  · intro status
    unfold runPCAClick
    match hget : pcaCacheGet cache key with
    | none => rfl
    | some cachedPCA =>
      by_cases hfresh : now - cachedPCA.2 < CACHE_DURATION_MS
      · simp [hfresh]
      · simp [hfresh, runPCAFetch]
  · intro pcaResult hmiss
    unfold runPCAClick
    rw [hmiss]
    exact ⟨rfl, fun hbad => by simp [runPCAFetch, validateAndJoin, hbad]⟩

/-- Witness for C5: concrete miss with a 404 and with the `data_points`-less
response. -/
theorem C5_cache_write_order_witness :
    (runPCAClick [] "k" 7 (.httpError 404) []).1 = [] ∧
    (runPCAClick [] "k" 7 (.ok badPCAResponse) []).1 =
      pcaCacheSet [] "k" (badPCAResponse, 7) :=
  ⟨(C5_cache_write_order [] "k" 7 []).1 404,
    ((C5_cache_write_order [] "k" 7 []).2 badPCAResponse rfl).1⟩

/-! ## Rows cache around the batch (`fetchFeatureMatrix`)

`fetchFeatureMatrix` checks `featureMatrixCache` for a fresh entry before
running the batch, and after `Promise.all` resolves it unconditionally
writes `{ data: allRows, columns, timestamp: Date.now() }` — the per-subject
failures were already absorbed inside `processNext`, so the write happens
even when some or all fetches failed. -/

/-- One `featureMatrixCache` entry. -/
structure MatrixCacheEntry where
  data : List SubjectEmotionFeatureRow
  columns : List String
  timestamp : Nat
deriving Repr, DecidableEq

/-- The rows cache; `set` prepends, `get` returns the most recent binding
(JS `Map` overwrite semantics). -/
abbrev MatrixCache := List (String × MatrixCacheEntry)

def matrixCacheGet (cache : MatrixCache) (key : String) : Option MatrixCacheEntry :=
  (cache.find? (fun e => e.1 == key)).map Prod.snd

def matrixCacheSet (cache : MatrixCache) (key : String) (e : MatrixCacheEntry) :
    MatrixCache :=
  (key, e) :: cache

/-- The cache-hit test of `fetchFeatureMatrix`: a stored entry counts only
while its age is below `CACHE_DURATION_MS`. -/
def matrixCacheLookup (cache : MatrixCache) (key : String) (now : Nat) :
    Option MatrixCacheEntry :=
  match matrixCacheGet cache key with
  | some e => if now - e.timestamp < CACHE_DURATION_MS then some e else none
  | none => none

/-- One invocation of `fetchFeatureMatrix` for a fixed query `key`: either a
fresh cache entry short-circuits the batch (no fetches, cache unchanged), or
the batch runs to completion and the accumulator is written to the cache with
the post-batch timestamp `endTime`.  The last component counts the subjects
fetched during the invocation. -/
inductive FetchMatrixRun (fetchResult : Nat → Option (List SubjectEmotionFeatureRow))
    (subjectIds : List Nat) (key : String) (cache : MatrixCache)
    (startTime endTime : Nat) :
    MatrixCache → List SubjectEmotionFeatureRow → Nat → Prop
  | hit (e : MatrixCacheEntry)
      (h : matrixCacheLookup cache key startTime = some e) :
      FetchMatrixRun fetchResult subjectIds key cache startTime endTime
        cache e.data 0
  | miss (σ : BatchState) (cols : List String)
      (hmiss : matrixCacheLookup cache key startTime = none)
      (hrun : Reachable fetchResult subjectIds σ)
      (hfin : σ.inFlight = []) :
      FetchMatrixRun fetchResult subjectIds key cache startTime endTime
        (matrixCacheSet cache key ⟨σ.allRows, cols, endTime⟩)
        σ.allRows σ.doneSubjects.length

/-- C10: after a cache-miss invocation — regardless of how many per-subject
fetches failed — the cache holds an entry for the key whose data is the
(possibly incomplete) accumulator, stamped with the post-batch time; and any
repeat invocation within the TTL is served that same data from the cache,
fetching zero subjects, so failed subjects are not refetched. -/
theorem C10_cache_incomplete_results
    (fetchResult : Nat → Option (List SubjectEmotionFeatureRow))
    (subjectIds : List Nat) (key : String) (cache : MatrixCache)
    (t0 t1 : Nat) (cache' : MatrixCache)
    (rows : List SubjectEmotionFeatureRow) (n : Nat)
    (hrun : FetchMatrixRun fetchResult subjectIds key cache t0 t1 cache' rows n)
    (hmiss : matrixCacheLookup cache key t0 = none) :
    rows ~ (subjectIds.filter (fun s => (fetchResult s).isSome)).flatMap
      (fun s => (fetchResult s).getD []) ∧
    (∀ t2, t2 - t1 < CACHE_DURATION_MS →
      matrixCacheLookup cache' key t2 = some ⟨rows, (matrixCacheGet cache' key).elim [] MatrixCacheEntry.columns, t1⟩) ∧
    (∀ t2 t3 cache'' rows' n',
      t2 - t1 < CACHE_DURATION_MS →
      FetchMatrixRun fetchResult subjectIds key cache' t2 t3 cache'' rows' n' →
      cache'' = cache' ∧ rows' = rows ∧ n' = 0) := by
  cases hrun with
  | hit e h => rw [h] at hmiss; exact absurd hmiss (by simp)
  | miss σ cols _ hreach hfin =>
    have hrows : σ.allRows ~
        (subjectIds.filter (fun s => (fetchResult s).isSome)).flatMap
          (fun s => (fetchResult s).getD []) := by
      obtain ⟨_, hdone⟩ := final_state_facts hreach hfin
      rw [(reachable_inv hreach).rows_eq, flatMap_getD_filter]
      exact perm_flatMap hdone _
    have hget : matrixCacheGet
        (matrixCacheSet cache key ⟨σ.allRows, cols, t1⟩) key =
        some ⟨σ.allRows, cols, t1⟩ := by
      simp [matrixCacheGet, matrixCacheSet, List.find?_cons]
    have hlookup : ∀ t2, t2 - t1 < CACHE_DURATION_MS →
        matrixCacheLookup (matrixCacheSet cache key ⟨σ.allRows, cols, t1⟩)
          key t2 = some ⟨σ.allRows, cols, t1⟩ := by
      intro t2 hfresh
      unfold matrixCacheLookup
      rw [hget]
      simp [hfresh]
    refine ⟨hrows, ?_, ?_⟩
    · intro t2 hfresh
      rw [hlookup t2 hfresh, hget]
      simp [Option.elim]
    · intro t2 t3 cache'' rows' n' hfresh hrun₂
      cases hrun₂ with
      | hit e h =>
        rw [hlookup t2 hfresh] at h
        obtain rfl : e = ⟨σ.allRows, cols, t1⟩ := by
          exact (Option.some.injEq _ _ ▸ h).symm ▸ rfl
        exact ⟨rfl, rfl, rfl⟩
      | miss σ₂ cols₂ hmiss₂ _ _ =>
        rw [hlookup t2 hfresh] at hmiss₂
        exact absurd hmiss₂ (by simp)

/-- The cache contents after the all-failing one-subject batch over `[1]`. -/
def failCache : MatrixCache := matrixCacheSet [] "k" ⟨[], [], 1000⟩

/-- Witness for C10: the batch over `[1]` under `failFetch` (every fetch
fails) still writes the cache, and a repeat invocation 200 ms later is a hit
serving the empty accumulated data with zero fetches. -/
theorem C10_cache_incomplete_results_witness :
    failCache = failCache ∧ MatrixCacheEntry.data ⟨[], [], 1000⟩ = failFinal.allRows ∧ (0 : Nat) = 0 :=
  (C10_cache_incomplete_results failFetch [1] "k" [] 0 1000 failCache
      failFinal.allRows failFinal.doneSubjects.length
      (FetchMatrixRun.miss failFinal [] rfl
        (Relation.ReflTransGen.single
          (@Step.complete failFetch [] [] 1 (initState [1]) rfl))
        rfl)
      rfl).2.2 1200 1300 failCache (MatrixCacheEntry.data ⟨[], [], 1000⟩) 0
    (by decide)
    (FetchMatrixRun.hit ⟨[], [], 1000⟩ (by decide))

end FeatureAnalysis
